import Mathlib

/-!
Shallow embedding of `src/components/VideoGenerator.tsx`.

The component renders a 15 s animation on a 1080x1920 canvas and captures it
with a `MediaRecorder`.  Times and coordinates are JavaScript numbers; they are
modelled as rationals.  The per-frame drawing is abstracted to the observable
structure the specification talks about: which phase is selected, which draw
operations run, the numeric position/easing formulas, and the confetti layout.
The capture pipeline (`start`) is modelled as a state transformer over the
component's React state together with an event trace, parameterised by the
platform behaviour (`MediaRecorder.isTypeSupported`, constructor success,
animation success, emitted data fragments).
-/

/-- Source constant `WIDTH = 1080` (vertical 1080x1920 canvas). -/
def WIDTH : ℚ := 1080

/-- Source constant `HEIGHT = 1920`. -/
def HEIGHT : ℚ := 1920

/-- Source constant `DURATION_MS = 15000`. -/
def DURATION_MS : ℚ := 15000

/-- The four animation phases (source comment: `0-3 intro, 3-8 install,
8-12 prevent, 12-15 CTA`). -/
inductive Phase
  | Intro
  | Install
  | Prevent
  | CTA
deriving DecidableEq

/-- Phase selection branch structure of `frame` (lines 135-219):
`if (ms < 3000) ... else if (ms < 8000) ... else if (ms < 12000) ...
else if (ms <= 15000) ...` with no final else — past 15000 ms no phase
branch runs. -/
def phaseOf (ms : ℚ) : Option Phase :=
  if ms < 3000 then some Phase.Intro
  else if ms < 8000 then some Phase.Install
  else if ms < 12000 then some Phase.Prevent
  else if ms ≤ 15000 then some Phase.CTA
  else none

/-- Abstract draw operations performed by one execution of `frame`. -/
inductive DrawOp
  | clear
  | background
  | phaseContent (p : Phase)
deriving DecidableEq

/-- One execution of the `frame` callback at elapsed time `ms`:
`ctx.clearRect(...)`, then `drawBackground()`, then the phase branch
(if any) draws that phase's content. -/
def frame (ms : ℚ) : List DrawOp :=
  [DrawOp.clear, DrawOp.background] ++
    (match phaseOf ms with
     | some p => [DrawOp.phaseContent p]
     | none => [])

/-- The `requestAnimationFrame` loop of `playAnimation` (lines 126-224).
`ts` is the list of wall-clock instants at which successive scheduled
callbacks fire.  Each fired callback renders at `ms = now - clockStart`
and then, only if `now < clockStart + DURATION_MS`, schedules another
callback; otherwise it resolves and no further callback runs.  Returns
the rendered `(elapsedMs, draw-ops)` pairs in order. -/
def playAnimation (clockStart : ℚ) : List ℚ → List (ℚ × List DrawOp)
  | [] => []
  | now :: rest =>
      (now - clockStart, frame (now - clockStart)) ::
        (if now < clockStart + DURATION_MS then playAnimation clockStart rest
         else [])

/-- Per-frame progress `t = Math.min(1, (now - start) / (end - start))`
(line 129), with `end - start = DURATION_MS`. -/
def progress (elapsedMs : ℚ) : ℚ := min 1 (elapsedMs / DURATION_MS)

/-- `lerp = (a, b, t) => a + (b - a) * t` (line 123). -/
def lerp (a b t : ℚ) : ℚ := a + (b - a) * t

/-- `ease = (t) => 1 - Math.pow(1 - t, 3)` (line 124). -/
def ease (t : ℚ) : ℚ := 1 - (1 - t) ^ 3

/-- Horizontal device position in the Install animation (lines 148, 159):
`local = (ms - 3000) / 5000;
 x = lerp(canvas.width * 0.2, canvas.width * 0.5, ease(Math.min(1, local)))`. -/
def deviceX (w ms : ℚ) : ℚ :=
  lerp (w * 0.2) (w * 0.5) (ease (min 1 ((ms - 3000) / 5000)))

/-- One confetti particle: position, size and hue (lines 431-435). -/
structure Particle where
  x : ℚ
  y : ℚ
  size : ℚ
  hue : ℚ
deriving DecidableEq

/-- `rng = (seed) => { const s = Math.sin(seed) * 10000; return s - Math.floor(s); }`
(lines 425-428).  `sin` is the platform's sine function, passed as a
parameter; the formula is otherwise verbatim. -/
def rng (sin : ℚ → ℚ) (seed : ℚ) : ℚ :=
  sin seed * 10000 - ⌊sin seed * 10000⌋

/-- The confetti field drawn by `drawConfetti` (lines 424-440): 80 particles,
particle `i` seeded by `i * 123.456 + now * 0.002`. -/
def drawConfetti (sin : ℚ → ℚ) (now : ℚ) : List Particle :=
  (List.range 80).map fun (i : ℕ) =>
    { x := rng sin ((i : ℚ) * 123.456 + now * 0.002) * WIDTH
      y := rng sin ((i : ℚ) * 123.456 + now * 0.002 + 1.23) * HEIGHT * 0.6 +
             HEIGHT * 0.2
      size := 6 + rng sin ((i : ℚ) * 123.456 + now * 0.002 + 2.34) * 14
      hue := 20 + rng sin ((i : ℚ) * 123.456 + now * 0.002 + 3.45) * 40 }

/-- Ordered candidate mime types probed by `getSupportedMimeType`
(lines 76-82). -/
def candidates : List String :=
  ["video/webm;codecs=vp9", "video/webm;codecs=vp8", "video/webm",
   "video/mp4;codecs=h264", "video/mp4"]

/-- `getSupportedMimeType` (lines 75-87): return the first candidate for
which `MediaRecorder.isTypeSupported` holds, else fall back to
`"video/webm"`. -/
def getSupportedMimeType (isTypeSupported : String → Bool) : String :=
  match candidates.find? isTypeSupported with
  | some t => t
  | none => "video/webm"

/-- `type GenerationState = "idle" | "recording" | "done" | "error"` (line 5). -/
inductive GenerationState
  | idle
  | recording
  | done
  | error
deriving DecidableEq

/-- The component state touched by a run: `chunksRef.current`, the produced
blob (bytes plus mime type), `recState`, and the error message.  Encoded
data fragments are byte lists. -/
structure RunState where
  chunks : List (List ℕ)
  blob : Option (List ℕ × String)
  recState : GenerationState
  errorMsg : Option String
deriving DecidableEq

/-- Observable events of one `start` run, in execution order. -/
inductive Event
  | createRecorder (mime : String)
  | clearBuffer
  | recStart
  | animTick
  | recStop
  | dataAvailable (frag : List ℕ)
  | artifactProduced (bytes : List ℕ) (mime : String)
  | errorSet (msg : String)
deriving DecidableEq

/-- Platform behaviour a run is executed against: the mime-support probe,
whether the `MediaRecorder` constructor throws (and with which message),
whether `playAnimation` rejects, how many animation ticks fire, and the
encoded data fragments the recorder emits, in arrival order. -/
structure Platform where
  isTypeSupported : String → Bool
  recorderCreateError : String → Option String
  animationError : Option String
  ticks : ℕ
  fragments : List (List ℕ)

/-- The data-available handler
`(e) => e.data.size && chunksRef.current.push(e.data)` (line 36):
append the fragment iff its size is non-zero. -/
def ondataavailable (chunks : List (List ℕ)) (frag : List ℕ) : List (List ℕ) :=
  if frag.length ≠ 0 then chunks ++ [frag] else chunks

/-- Buffer contents after the handler has processed `frags` in order,
starting from the empty buffer set at line 35. -/
def bufferAfter (frags : List (List ℕ)) : List (List ℕ) :=
  frags.foldl ondataavailable []

/-- `new Blob(chunksRef.current, ...)` (line 38): byte-wise concatenation of
the buffered fragments in order. -/
def makeBlob (chunks : List (List ℕ)) : List ℕ := chunks.flatten

/-- The `start` handler (lines 25-52), linearised.
Order of effects follows the source exactly:
`setError(null); setBlobUrl(null)`; `new MediaRecorder(stream, ...)` with the
probed mime type (may throw — caught: `setError`, `setRecState("error")`);
`chunksRef.current = []`; handler registration; `setRecState("recording")`;
`rec.start()`; `await playAnimation(canvas)` (may reject — caught, with no
`rec.stop()` call on that path); `rec.stop()`, whose flush delivers the
fragments and whose `onstop` builds the blob and sets state `done`. -/
def start (p : Platform) (st : RunState) : RunState × List Event :=
  let st0 : RunState := { st with errorMsg := none, blob := none }
  let mime := getSupportedMimeType p.isTypeSupported
  match p.recorderCreateError mime with
  | some msg =>
      ({ st0 with errorMsg := some msg, recState := GenerationState.error },
       [Event.createRecorder mime, Event.errorSet msg])
  | none =>
      let st1 : RunState :=
        { st0 with chunks := [], recState := GenerationState.recording }
      match p.animationError with
      | some msg =>
          ({ st1 with errorMsg := some msg, recState := GenerationState.error },
           [Event.createRecorder mime, Event.clearBuffer, Event.recStart] ++
             List.replicate p.ticks Event.animTick ++ [Event.errorSet msg])
      | none =>
          ({ st1 with chunks := bufferAfter p.fragments,
                      blob := some (makeBlob (bufferAfter p.fragments), mime),
                      recState := GenerationState.done },
           [Event.createRecorder mime, Event.clearBuffer, Event.recStart] ++
             List.replicate p.ticks Event.animTick ++ [Event.recStop] ++
             p.fragments.map Event.dataAvailable ++
             [Event.artifactProduced (makeBlob (bufferAfter p.fragments)) mime])

/-- The component's initial state: empty buffer, no blob, `idle`, no error. -/
def stIdle : RunState := ⟨[], none, GenerationState.idle, none⟩

/-- A dirty prior state: chunks and an artifact left over from an earlier run. -/
def stDirty : RunState :=
  ⟨[[9, 9], [7]], some ([9], "video/webm"), GenerationState.error, some "old"⟩

/-- A platform on which no candidate mime type is supported and the
`MediaRecorder` constructor consequently throws `NotSupportedError`. -/
def pUnsupported : Platform :=
  ⟨fun _ => false, fun _ => some "NotSupportedError", none, 0, []⟩

/-- A platform on which recording starts but `playAnimation` rejects mid-run. -/
def pAnimErr : Platform := ⟨fun _ => true, fun _ => none, some "boom", 3, []⟩

/-- A platform on which a run succeeds, emitting fragments `[1]`, `[]` (empty),
`[2]`, `[3]` in that order. -/
def pOk : Platform := ⟨fun _ => true, fun _ => none, none, 2, [[1], [], [2], [3]]⟩

/-! ### Helper lemmas -/

/-- Unfolding `start` on the path where the `MediaRecorder` constructor throws. -/
theorem start_createError (p : Platform) (st : RunState) (msg : String)
    (h : p.recorderCreateError (getSupportedMimeType p.isTypeSupported) = some msg) :
    start p st =
      ({ chunks := st.chunks, blob := none, recState := GenerationState.error,
         errorMsg := some msg },
       [Event.createRecorder (getSupportedMimeType p.isTypeSupported),
        Event.errorSet msg]) := by
  unfold start
  dsimp only
  rw [h]

/-- Unfolding `start` on the path where `playAnimation` rejects mid-run. -/
theorem start_animError (p : Platform) (st : RunState) (msg : String)
    (hrec : p.recorderCreateError (getSupportedMimeType p.isTypeSupported) = none)
    (hanim : p.animationError = some msg) :
    start p st =
      ({ chunks := [], blob := none, recState := GenerationState.error,
         errorMsg := some msg },
       [Event.createRecorder (getSupportedMimeType p.isTypeSupported),
        Event.clearBuffer, Event.recStart] ++
         List.replicate p.ticks Event.animTick ++ [Event.errorSet msg]) := by
  unfold start
  dsimp only
  rw [hrec, hanim]

/-- Unfolding `start` on the successful path. -/
theorem start_success (p : Platform) (st : RunState)
    (hrec : p.recorderCreateError (getSupportedMimeType p.isTypeSupported) = none)
    (hanim : p.animationError = none) :
    start p st =
      ({ chunks := bufferAfter p.fragments,
         blob := some (makeBlob (bufferAfter p.fragments),
                       getSupportedMimeType p.isTypeSupported),
         recState := GenerationState.done, errorMsg := none },
       [Event.createRecorder (getSupportedMimeType p.isTypeSupported),
        Event.clearBuffer, Event.recStart] ++
         List.replicate p.ticks Event.animTick ++ [Event.recStop] ++
         p.fragments.map Event.dataAvailable ++
         [Event.artifactProduced (makeBlob (bufferAfter p.fragments))
            (getSupportedMimeType p.isTypeSupported)]) := by
  unfold start
  dsimp only
  rw [hrec, hanim]

/-- Past the end of the timeline no phase branch of `frame` fires. -/
theorem phaseOf_eq_none_of_gt (ms : ℚ) (h : 15000 < ms) : phaseOf ms = none := by
  unfold phaseOf
  split_ifs <;> first | rfl | linarith

/-- `List.find?` returns the first element satisfying the predicate: the list
splits into an unsatisfying prefix, the found element, and a suffix. -/
theorem find?_first {α : Type} (p : α → Bool) :
    ∀ (l : List α) (t : α), l.find? p = some t →
      ∃ pre post, l = pre ++ t :: post ∧ (∀ u ∈ pre, p u = false) ∧ p t = true := by
  intro l
  induction l with
  | nil => intro t h; simp [List.find?] at h
  | cons a l ih =>
    intro t h
    by_cases hpa : p a
    · refine ⟨[], l, ?_, by simp, ?_⟩
      · have : a = t := by simpa [List.find?, hpa] using h
        simp [this]
      · have : a = t := by simpa [List.find?, hpa] using h
        rw [this] at hpa; exact hpa
    · have h' : l.find? p = some t := by
        simpa [List.find?, hpa] using h
      obtain ⟨pre, post, hl, hpre, hpt⟩ := ih t h'
      refine ⟨a :: pre, post, by simp [hl], ?_, hpt⟩
      intro u hu
      rcases List.mem_cons.mp hu with rfl | hu
      · simpa using hpa
      · exact hpre u hu

/-- The handler accumulates exactly the non-empty fragments, in order. -/
theorem foldl_ondataavailable (frags : List (List ℕ)) :
    ∀ acc, frags.foldl ondataavailable acc =
      acc ++ frags.filter (fun f => decide (f ≠ [])) := by
  induction frags with
  | nil => intro acc; simp
  | cons f frags ih =>
    intro acc
    by_cases hf : f = []
    · simp [hf, ondataavailable, List.foldl_cons, ih]
    · have hlen : f.length ≠ 0 := by simpa [List.length_eq_zero] using hf
      simp [List.foldl_cons, ondataavailable, hlen, ih, hf]

/-- `bufferAfter` keeps exactly the non-empty fragments in arrival order. -/
theorem bufferAfter_eq_filter (frags : List (List ℕ)) :
    bufferAfter frags = frags.filter (fun f => decide (f ≠ [])) := by
  simpa using foldl_ondataavailable frags []

/-- A frame rendered past the end of the timeline draws only the clear and the
background: no phase branch fires. -/
theorem frame_past_end (ms : ℚ) (h : 15000 < ms) :
    frame ms = [DrawOp.clear, DrawOp.background] := by
  simp [frame, phaseOf_eq_none_of_gt ms h]

/-- Every rendered frame whose elapsed time exceeds 15000 ms consists of the
clear and the background only. -/
theorem playAnimation_past_end_ops (clockStart : ℚ) :
    ∀ ts : List ℚ, ∀ pr ∈ playAnimation clockStart ts,
      15000 < pr.1 → pr.2 = [DrawOp.clear, DrawOp.background] := by
  intro ts
  induction ts with
  | nil => intro pr hpr; simp [playAnimation] at hpr
  | cons now rest ih =>
    intro pr hpr hgt
    rw [playAnimation] at hpr
    rcases List.mem_cons.mp hpr with h | h
    · rw [h] at hgt ⊢
      exact frame_past_end _ (by simpa using hgt)
    · by_cases hc : now < clockStart + DURATION_MS
      · rw [if_pos hc] at h
        exact ih pr h hgt
      · rw [if_neg hc] at h
        simp at h

/-- The driver stops scheduling at the first callback at or past the end, so
at most one rendered frame has elapsed time at least 15000 ms. -/
theorem playAnimation_at_most_one_past_end (clockStart : ℚ) :
    ∀ ts : List ℚ,
      ((playAnimation clockStart ts).filter
        (fun pr => decide ((15000:ℚ) ≤ pr.1))).length ≤ 1 := by
  intro ts
  induction ts with
  | nil => simp [playAnimation]
  | cons now rest ih =>
    rw [playAnimation]
    by_cases hc : now < clockStart + DURATION_MS
    · rw [if_pos hc, List.filter_cons]
      have hlt : ¬ (15000:ℚ) ≤ now - clockStart := by
        have hD : DURATION_MS = 15000 := rfl
        rw [hD] at hc
        intro hle
        linarith
      simpa [hlt] using ih
    · rw [if_neg hc]
      cases hq : decide ((15000:ℚ) ≤ now - clockStart) <;>
        simp [List.filter_cons, hq]

/-! ### Claims -/

/-- Claim C1: for every `elapsedMs` in `[0, 15000]`, the frame renderer's
phase selection is a total, deterministic function choosing exactly one of
Intro, Install, Prevent, CTA, with windows `[0,3000)`, `[3000,8000)`,
`[8000,12000)`, `[12000,15000]`, and the boundaries resolve consistently:
2999 renders Intro, 3000 Install, 8000 Prevent, 12000 CTA and 15000 CTA. -/
theorem C1_phase_selection (ms : ℚ) (h0 : 0 ≤ ms) (h1 : ms ≤ 15000) :
    (∃! ph : Phase, phaseOf ms = some ph)
    ∧ (phaseOf ms = some Phase.Intro ↔ ms < 3000)
    ∧ (phaseOf ms = some Phase.Install ↔ 3000 ≤ ms ∧ ms < 8000)
    ∧ (phaseOf ms = some Phase.Prevent ↔ 8000 ≤ ms ∧ ms < 12000)
    ∧ (phaseOf ms = some Phase.CTA ↔ 12000 ≤ ms)
    ∧ phaseOf 2999 = some Phase.Intro
    ∧ phaseOf 3000 = some Phase.Install
    ∧ phaseOf 8000 = some Phase.Prevent
    ∧ phaseOf 12000 = some Phase.CTA
    ∧ phaseOf 15000 = some Phase.CTA := by
  have hIntro : phaseOf ms = some Phase.Intro ↔ ms < 3000 := by
    constructor
    · intro h
      unfold phaseOf at h
      split_ifs at h with a b c
      · exact a
      all_goals simp at h
    · intro h
      unfold phaseOf
      rw [if_pos h]
  have hInstall : phaseOf ms = some Phase.Install ↔ 3000 ≤ ms ∧ ms < 8000 := by
    constructor
    · intro h
      unfold phaseOf at h
      split_ifs at h with a b c
      · simp at h
      · exact ⟨le_of_not_lt a, b⟩
      all_goals simp at h
    · rintro ⟨h3, h8⟩
      unfold phaseOf
      rw [if_neg (not_lt.mpr h3), if_pos h8]
  have hPrevent : phaseOf ms = some Phase.Prevent ↔ 8000 ≤ ms ∧ ms < 12000 := by
    constructor
    · intro h
      unfold phaseOf at h
      split_ifs at h with a b c
      · simp at h
      · simp at h
      · exact ⟨le_of_not_lt b, c⟩
      all_goals simp at h
    · rintro ⟨h8, h12⟩
      unfold phaseOf
      rw [if_neg (not_lt.mpr (by linarith : (3000:ℚ) ≤ ms)),
          if_neg (not_lt.mpr h8), if_pos h12]
  have hCTA : phaseOf ms = some Phase.CTA ↔ 12000 ≤ ms := by
    constructor
    · intro h
      unfold phaseOf at h
      split_ifs at h with a b c
      · simp at h
      · simp at h
      · simp at h
      · exact le_of_not_lt c
    · intro h12
      unfold phaseOf
      rw [if_neg (not_lt.mpr (by linarith : (3000:ℚ) ≤ ms)),
          if_neg (not_lt.mpr (by linarith : (8000:ℚ) ≤ ms)),
          if_neg (not_lt.mpr h12), if_pos h1]
  have htot : ∃ ph : Phase, phaseOf ms = some ph := by
    unfold phaseOf
    split_ifs with a b c
    · exact ⟨Phase.Intro, rfl⟩
    · exact ⟨Phase.Install, rfl⟩
    · exact ⟨Phase.Prevent, rfl⟩
    · exact ⟨Phase.CTA, rfl⟩
  obtain ⟨ph, hph⟩ := htot
  refine ⟨⟨ph, hph, ?_⟩, hIntro, hInstall, hPrevent, hCTA,
    by norm_num [phaseOf], by norm_num [phaseOf], by norm_num [phaseOf],
    by norm_num [phaseOf], by norm_num [phaseOf]⟩
  intro y hy
  exact Option.some.inj (hy.symm.trans hph)

/-- Witness for C1 at `elapsedMs = 4500` (an Install-phase instant). -/
theorem C1_phase_selection_witness :
    (0:ℚ) ≤ 4500 ∧ (4500:ℚ) ≤ 15000 ∧
    ((∃! ph : Phase, phaseOf 4500 = some ph)
      ∧ (phaseOf 4500 = some Phase.Intro ↔ (4500:ℚ) < 3000)
      ∧ (phaseOf 4500 = some Phase.Install ↔ (3000:ℚ) ≤ 4500 ∧ (4500:ℚ) < 8000)
      ∧ (phaseOf 4500 = some Phase.Prevent ↔ (8000:ℚ) ≤ 4500 ∧ (4500:ℚ) < 12000)
      ∧ (phaseOf 4500 = some Phase.CTA ↔ (12000:ℚ) ≤ 4500)
      ∧ phaseOf 2999 = some Phase.Intro
      ∧ phaseOf 3000 = some Phase.Install
      ∧ phaseOf 8000 = some Phase.Prevent
      ∧ phaseOf 12000 = some Phase.CTA
      ∧ phaseOf 15000 = some Phase.CTA) :=
  ⟨by norm_num, by norm_num, C1_phase_selection 4500 (by norm_num) (by norm_num)⟩

/-- Claim C2 (counterexample): with callbacks firing at 14990 ms and 15006 ms,
the callback whose elapsed time is 15006 ms — strictly greater than 15000 —
still executes the renderer: it clears the surface and paints the background
before the driver's stop check runs.  So a timestamp beyond 15000 ms does
reach the renderer and drawing does occur there, contrary to the claim that
the driver stops first and no drawing occurs. -/
theorem C2_overshoot_counterexample :
    (15006, [DrawOp.clear, DrawOp.background]) ∈ playAnimation 0 [14990, 15006]
    ∧ [DrawOp.clear, DrawOp.background] ≠ ([] : List DrawOp)
    ∧ phaseOf 15006 = none := by
  refine ⟨?_, by simp, by norm_num [phaseOf]⟩
  have h : playAnimation 0 [14990, 15006] =
      [(14990, frame 14990), (15006, frame 15006)] := by
    norm_num [playAnimation, DURATION_MS]
  rw [h]
  have h2 : frame 15006 = [DrawOp.clear, DrawOp.background] := by
    norm_num [frame, phaseOf]
  rw [h2]
  simp

/-- Claim C2 (amended): a scheduled callback may fire with elapsed time
strictly beyond 15000 ms and still executes the renderer, but such a frame
draws only the clear and the background — the phase selector assigns it no
phase, so no phase content is drawn — and the driver resolves at the first
callback at or past the end, so at most one rendered frame of a run has
elapsed time ≥ 15000 ms. -/
theorem C2_overshoot_policy (clockStart : ℚ) (ts : List ℚ) :
    (∀ pr ∈ playAnimation clockStart ts,
        15000 < pr.1 → pr.2 = [DrawOp.clear, DrawOp.background])
    ∧ ((playAnimation clockStart ts).filter
        (fun pr => decide ((15000:ℚ) ≤ pr.1))).length ≤ 1 :=
  ⟨playAnimation_past_end_ops clockStart ts,
   playAnimation_at_most_one_past_end clockStart ts⟩

/-- Witness for the amended C2 on the schedule `[14990, 15006]`. -/
theorem C2_overshoot_policy_witness :
    frame 15006 = [DrawOp.clear, DrawOp.background]
    ∧ ((playAnimation 0 [14990, 15006]).filter
        (fun pr => decide ((15000:ℚ) ≤ pr.1))).length ≤ 1 := by
  constructor
  · have h : playAnimation 0 [14990, 15006] =
        [(14990, frame 14990), (15006, frame 15006)] := by
      norm_num [playAnimation, DURATION_MS]
    have hmem : (15006, frame 15006) ∈ playAnimation 0 [14990, 15006] := by
      rw [h]; simp
    have := (C2_overshoot_policy 0 [14990, 15006]).1 (15006, frame 15006) hmem
      (by norm_num)
    simpa using this
  · exact (C2_overshoot_policy 0 [14990, 15006]).2

/-- Claim C3: for every reachable elapsed time (`elapsedMs ≥ 0`, as the
animation clock is monotone), the per-frame progress equals
`clamp(elapsedMs/15000, 0, 1)`; it is monotonically non-decreasing in
`elapsedMs`, never below 0, never above 1, and exactly 1 whenever
`elapsedMs ≥ 15000`. -/
theorem C3_progress_clamp (e : ℚ) (he : 0 ≤ e) :
    progress e = max 0 (min 1 (e / 15000))
    ∧ 0 ≤ progress e
    ∧ progress e ≤ 1
    ∧ (∀ f, e ≤ f → progress e ≤ progress f)
    ∧ (15000 ≤ e → progress e = 1) := by
  have hD : DURATION_MS = 15000 := rfl
  have hnn : 0 ≤ min 1 (e / 15000) :=
    le_min (by norm_num) (div_nonneg he (by norm_num))
  refine ⟨?_, ?_, ?_, ?_, ?_⟩
  · simp only [progress, hD]
    rw [max_eq_right hnn]
  · simp only [progress, hD]
    exact hnn
  · simp only [progress]
    exact min_le_left _ _
  · intro f hef
    simp only [progress, hD]
    exact min_le_min le_rfl ((div_le_div_iff_of_pos_right (by norm_num)).mpr hef)
  · intro h15
    simp only [progress, hD]
    exact min_eq_left ((one_le_div (by norm_num)).mpr h15)

/-- Witness for C3 at `elapsedMs = 20000`: progress is exactly 1. -/
theorem C3_progress_clamp_witness :
    (0:ℚ) ≤ 20000 ∧ progress 20000 = 1 :=
  ⟨by norm_num, (C3_progress_clamp 20000 (by norm_num)).2.2.2.2 (by norm_num)⟩

/-- Claim C4: if no candidate encoding format in the ordered probe list is
supported — in which case, per the `MediaRecorder` contract, constructing
the recorder with the `"video/webm"` fallback throws — the run fails before
the encoder is started: recording never starts, no stop happens, no artifact
is produced, and the unsupported-capability error is surfaced.  Otherwise
the first supported candidate in list order is selected. -/
theorem C4_format_selection (p : Platform) (st : RunState) (err : String)
    (hnone : ∀ t ∈ candidates, p.isTypeSupported t = false)
    (hthrow : p.recorderCreateError "video/webm" = some err) :
    ((start p st).1.errorMsg = some err
      ∧ (start p st).1.recState = GenerationState.error
      ∧ (start p st).1.blob = none
      ∧ Event.recStart ∉ (start p st).2
      ∧ Event.recStop ∉ (start p st).2)
    ∧ (∀ sup : String → Bool, (∃ t ∈ candidates, sup t = true) →
        ∃ pre post, candidates = pre ++ getSupportedMimeType sup :: post
          ∧ (∀ u ∈ pre, sup u = false)
          ∧ sup (getSupportedMimeType sup) = true) := by
  have hfind : candidates.find? p.isTypeSupported = none :=
    List.find?_eq_none.mpr (by intro x hx; simp [hnone x hx])
  have hmime : getSupportedMimeType p.isTypeSupported = "video/webm" := by
    simp [getSupportedMimeType, hfind]
  have hrec : p.recorderCreateError (getSupportedMimeType p.isTypeSupported) =
      some err := by
    rw [hmime]; exact hthrow
  have hs := start_createError p st err hrec
  constructor
  · rw [hs]
    exact ⟨rfl, rfl, rfl, by simp, by simp⟩
  · rintro sup ⟨t, ht, hsup⟩
    have hex : ∃ u, candidates.find? sup = some u := by
      cases hf : candidates.find? sup with
      | some u => exact ⟨u, rfl⟩
      | none =>
        exact absurd hsup (by simpa using List.find?_eq_none.mp hf t ht)
    obtain ⟨u, hu⟩ := hex
    have hmu : getSupportedMimeType sup = u := by
      simp [getSupportedMimeType, hu]
    obtain ⟨pre, post, hsplit, hpre, hput⟩ := find?_first sup candidates u hu
    exact ⟨pre, post, by rw [hmu]; exact hsplit, hpre, by rw [hmu]; exact hput⟩

/-- Witness for C4 on `pUnsupported`, where nothing is supported and the
constructor throws `NotSupportedError`. -/
theorem C4_format_selection_witness :
    (∀ t ∈ candidates, pUnsupported.isTypeSupported t = false)
    ∧ pUnsupported.recorderCreateError "video/webm" = some "NotSupportedError"
    ∧ ((start pUnsupported stIdle).1.errorMsg = some "NotSupportedError"
      ∧ (start pUnsupported stIdle).1.recState = GenerationState.error
      ∧ (start pUnsupported stIdle).1.blob = none
      ∧ Event.recStart ∉ (start pUnsupported stIdle).2
      ∧ Event.recStop ∉ (start pUnsupported stIdle).2)
    ∧ (∀ sup : String → Bool, (∃ t ∈ candidates, sup t = true) →
        ∃ pre post, candidates = pre ++ getSupportedMimeType sup :: post
          ∧ (∀ u ∈ pre, sup u = false)
          ∧ sup (getSupportedMimeType sup) = true) := by
  obtain ⟨hA, hB⟩ := C4_format_selection pUnsupported stIdle "NotSupportedError"
    (by intro t ht; rfl) rfl
  exact ⟨by intro t ht; rfl, rfl, hA, hB⟩

/-- Claim C5 (code bug): the code evaluated at a mid-run failure.  On
`pAnimErr` (the animation rejects with "boom" after recording started), the
run surfaces the error and produces no artifact — and in general an artifact
exists iff the run completed without error — but the `catch` path never
stops the recorder: `recStart` is in the trace while `recStop` is not, so
the encoder and capture stream are never stopped or released, contrary to
the claim's stop/release requirement. -/
theorem C5_midrun_failure_no_stop :
    (start pAnimErr stIdle).1.errorMsg = some "boom"
    ∧ (start pAnimErr stIdle).1.recState = GenerationState.error
    ∧ (start pAnimErr stIdle).1.blob = none
    ∧ Event.recStart ∈ (start pAnimErr stIdle).2
    ∧ Event.recStop ∉ (start pAnimErr stIdle).2
    ∧ (∀ bytes mime, Event.artifactProduced bytes mime ∉ (start pAnimErr stIdle).2)
    ∧ (∀ q : Platform, ∀ s : RunState,
        ((start q s).1.blob.isSome = true ↔ (start q s).1.errorMsg = none)) := by
  have hs := start_animError pAnimErr stIdle "boom" rfl rfl
  rw [hs]
  refine ⟨rfl, rfl, rfl, by simp, ?_, ?_, ?_⟩
  · simp [List.mem_append, List.mem_replicate]
  · intro bytes mime
    simp [List.mem_append, List.mem_replicate]
  · intro q s
    cases hq : q.recorderCreateError (getSupportedMimeType q.isTypeSupported) with
    | some m => rw [start_createError q s m hq]; simp
    | none =>
      cases ha : q.animationError with
      | some m => rw [start_animError q s m hq ha]; simp
      | none => rw [start_success q s hq ha]; simp

/-- Claim C6: in every successful run the encoder is started strictly before
the first animation tick and stopped only after the last tick — the trace
splits as `pre ++ recStart :: (ticks ++ recStop :: post)` with no tick
outside the middle block — and the stop happens exactly once. -/
theorem C6_encoder_brackets_run (p : Platform) (st : RunState)
    (hrec : p.recorderCreateError (getSupportedMimeType p.isTypeSupported) = none)
    (hanim : p.animationError = none) :
    ∃ pre post,
      (start p st).2 =
        pre ++ Event.recStart ::
          (List.replicate p.ticks Event.animTick ++ Event.recStop :: post)
      ∧ Event.animTick ∉ pre
      ∧ Event.animTick ∉ post
      ∧ Event.recStart ∉ List.replicate p.ticks Event.animTick
      ∧ (start p st).2.count Event.recStop = 1 := by
  have hs := start_success p st hrec hanim
  refine ⟨[Event.createRecorder (getSupportedMimeType p.isTypeSupported),
           Event.clearBuffer],
          p.fragments.map Event.dataAvailable ++
            [Event.artifactProduced (makeBlob (bufferAfter p.fragments))
               (getSupportedMimeType p.isTypeSupported)],
          ?_, by simp, ?_, ?_, ?_⟩
  · rw [hs]
    simp [List.append_assoc]
  · simp [List.mem_append, List.mem_map]
  · simp [List.mem_replicate]
  · rw [hs]
    have h1 : (p.fragments.map Event.dataAvailable).count Event.recStop = 0 :=
      List.count_eq_zero.mpr (by simp)
    have h2 : (List.replicate p.ticks Event.animTick).count Event.recStop = 0 :=
      List.count_eq_zero.mpr (by simp [List.mem_replicate])
    simp [List.count_append, h1, h2, List.count_cons]

/-- Witness for C6 on the successful platform `pOk`. -/
theorem C6_encoder_brackets_run_witness :
    pOk.recorderCreateError (getSupportedMimeType pOk.isTypeSupported) = none
    ∧ pOk.animationError = none
    ∧ ∃ pre post,
        (start pOk stIdle).2 =
          pre ++ Event.recStart ::
            (List.replicate pOk.ticks Event.animTick ++ Event.recStop :: post)
        ∧ Event.animTick ∉ pre
        ∧ Event.animTick ∉ post
        ∧ Event.recStart ∉ List.replicate pOk.ticks Event.animTick
        ∧ (start pOk stIdle).2.count Event.recStop = 1 :=
  ⟨rfl, rfl, C6_encoder_brackets_run pOk stIdle rfl rfl⟩

/-- Claim C7: the data-available handler appends exactly the non-empty
fragments, in arrival order (empty fragments are skipped), and the final
artifact is the byte-wise concatenation of the buffered fragments in that
order. -/
theorem C7_chunk_order (p : Platform) (st : RunState)
    (hrec : p.recorderCreateError (getSupportedMimeType p.isTypeSupported) = none)
    (hanim : p.animationError = none) :
    bufferAfter p.fragments = p.fragments.filter (fun f => decide (f ≠ []))
    ∧ (start p st).1.chunks = p.fragments.filter (fun f => decide (f ≠ []))
    ∧ (start p st).1.blob =
        some ((p.fragments.filter (fun f => decide (f ≠ []))).flatten,
              getSupportedMimeType p.isTypeSupported) := by
  have hb := bufferAfter_eq_filter p.fragments
  have hs := start_success p st hrec hanim
  refine ⟨hb, ?_, ?_⟩
  · rw [hs]
    exact hb
  · rw [hs]
    simp [makeBlob, hb]

/-- Witness for C7: fragments `[1]`, `[]`, `[2]`, `[3]` produce the artifact
`[1] ‖ [2] ‖ [3] = [1, 2, 3]`. -/
theorem C7_chunk_order_witness :
    pOk.fragments = [[1], [], [2], [3]]
    ∧ bufferAfter pOk.fragments = [[1], [2], [3]]
    ∧ (start pOk stIdle).1.blob = some ([1, 2, 3], "video/webm;codecs=vp9") := by
  obtain ⟨h1, h2, h3⟩ := C7_chunk_order pOk stIdle rfl rfl
  refine ⟨rfl, ?_, ?_⟩
  · rw [h1]
    rfl
  · rw [h3]
    rfl

/-- Claim C8: the Install-phase device position formula evaluated at the
`elapsedMs = 8000` boundary equals `lerp(0.2·W, 0.5·W, ease(1)) = 0.5·W`
(540 px for the 1080-px canvas), and the easing `ease(t) = 1 - (1-t)^3`
satisfies `ease(0) = 0`, `ease(1) = 1` and is monotone non-decreasing on
`[0, 1]` — the easing reaches its target exactly at the Install/Prevent
boundary. -/
theorem C8_install_easing (w : ℚ) :
    deviceX w 8000 = lerp (w * 0.2) (w * 0.5) (ease 1)
    ∧ deviceX w 8000 = w * 0.5
    ∧ deviceX WIDTH 8000 = 540
    ∧ ease 0 = 0
    ∧ ease 1 = 1
    ∧ (∀ a b : ℚ, 0 ≤ a → a ≤ b → b ≤ 1 → ease a ≤ ease b) := by
  have hone : min (1:ℚ) ((8000 - 3000) / 5000) = 1 := by norm_num
  have hval : ∀ v : ℚ, deviceX v 8000 = v * 0.5 := by
    intro v
    simp only [deviceX, hone, lerp, ease]
    ring_nf
  refine ⟨?_, hval w, ?_, by norm_num [ease], by norm_num [ease], ?_⟩
  · simp only [deviceX, hone]
  · rw [hval WIDTH]
    norm_num [WIDTH]
  · intro a b ha hab hb
    simp only [ease]
    have h3 : (1 - b) ^ 3 ≤ (1 - a) ^ 3 :=
      pow_le_pow_left₀ (by linarith) (by linarith) 3
    linarith

/-- Witness for C8 at the canvas width, with the easing bounds at 0 and 1. -/
theorem C8_install_easing_witness :
    (0:ℚ) ≤ 0 ∧ (0:ℚ) ≤ 1 ∧ (1:ℚ) ≤ 1
    ∧ deviceX WIDTH 8000 = 540 ∧ ease 0 ≤ ease 1 :=
  ⟨le_refl 0, by norm_num, le_refl 1,
   (C8_install_easing WIDTH).2.2.1,
   (C8_install_easing WIDTH).2.2.2.2.2 0 1 (le_refl 0) (by norm_num) (le_refl 1)⟩

/-- Claim C9: the CTA confetti field is a deterministic function of the frame
timestamp — two evaluations at the same `now` are identical — consisting of
exactly 80 particles, and particle `i`'s position, size and hue are the
fractional-part formula `frac(sin(seed)·10000)` at seeds determined by
`(i, now)`: `seed = i·123.456 + now·0.002` with offsets 1.23, 2.34, 3.45. -/
theorem C9_confetti_deterministic (sin : ℚ → ℚ) (now : ℚ) :
    drawConfetti sin now = drawConfetti sin now
    ∧ (drawConfetti sin now).length = 80
    ∧ (∀ i : ℕ, i < 80 →
        (drawConfetti sin now).getD i ⟨0, 0, 0, 0⟩ =
          { x := (sin ((i : ℚ) * 123.456 + now * 0.002) * 10000 -
                    ⌊sin ((i : ℚ) * 123.456 + now * 0.002) * 10000⌋) * 1080
            y := (sin ((i : ℚ) * 123.456 + now * 0.002 + 1.23) * 10000 -
                    ⌊sin ((i : ℚ) * 123.456 + now * 0.002 + 1.23) * 10000⌋) *
                   1920 * 0.6 + 1920 * 0.2
            size := 6 + (sin ((i : ℚ) * 123.456 + now * 0.002 + 2.34) * 10000 -
                    ⌊sin ((i : ℚ) * 123.456 + now * 0.002 + 2.34) * 10000⌋) * 14
            hue := 20 + (sin ((i : ℚ) * 123.456 + now * 0.002 + 3.45) * 10000 -
                    ⌊sin ((i : ℚ) * 123.456 + now * 0.002 + 3.45) * 10000⌋) * 40 }) := by
  refine ⟨rfl, by simp [drawConfetti], ?_⟩
  intro i h
  rw [List.getD_eq_getElem?_getD, drawConfetti, List.getElem?_map,
      List.getElem?_range h]
  rfl

/-- Witness for C9 with the zero sine function at `now = 0`, particle 0. -/
theorem C9_confetti_deterministic_witness :
    (0:ℕ) < 80 ∧
      (drawConfetti (fun _ => (0:ℚ)) 0).getD 0 ⟨0, 0, 0, 0⟩ =
        ⟨0, 384, 6, 20⟩ := by
  refine ⟨by norm_num, ?_⟩
  have h := (C9_confetti_deterministic (fun _ => (0:ℚ)) 0).2.2 0 (by norm_num)
  rw [h]
  norm_num

/-- Claim C10: whenever the `MediaRecorder` constructor succeeds, the chunk
buffer is cleared before the encoder is started (the trace begins
`createRecorder :: clearBuffer :: recStart :: ...`), and the whole run —
final state and trace — is independent of the prior state, so fragments
buffered by any earlier run (even one that ended in error) never appear in
this run's artifact, which on success is built from this run's fragments
only. -/
theorem C10_buffer_reset (p : Platform) (st st' : RunState)
    (hrec : p.recorderCreateError (getSupportedMimeType p.isTypeSupported) = none) :
    start p st = start p st'
    ∧ (∃ rest, (start p st).2 =
        Event.createRecorder (getSupportedMimeType p.isTypeSupported) ::
          Event.clearBuffer :: Event.recStart :: rest)
    ∧ (p.animationError = none →
        (start p st).1.blob =
          some (makeBlob (bufferAfter p.fragments),
                getSupportedMimeType p.isTypeSupported)) := by
  cases ha : p.animationError with
  | some m =>
    have h1 := start_animError p st m hrec ha
    have h2 := start_animError p st' m hrec ha
    refine ⟨h1.trans h2.symm,
      ⟨List.replicate p.ticks Event.animTick ++ [Event.errorSet m], ?_⟩, ?_⟩
    · rw [h1]
      simp
    · intro h
      exact (Option.some_ne_none m h).elim
  | none =>
    have h1 := start_success p st hrec ha
    have h2 := start_success p st' hrec ha
    refine ⟨h1.trans h2.symm,
      ⟨List.replicate p.ticks Event.animTick ++ [Event.recStop] ++
        p.fragments.map Event.dataAvailable ++
        [Event.artifactProduced (makeBlob (bufferAfter p.fragments))
           (getSupportedMimeType p.isTypeSupported)], ?_⟩,
      fun _ => by rw [h1]⟩
    · rw [h1]
      simp

/-- Witness for C10: a run from the dirty state equals the run from the clean
state, and its artifact holds only the new run's fragments. -/
theorem C10_buffer_reset_witness :
    stDirty.chunks = [[9, 9], [7]]
    ∧ start pOk stDirty = start pOk stIdle
    ∧ (start pOk stDirty).1.blob = some ([1, 2, 3], "video/webm;codecs=vp9") := by
  obtain ⟨h1, h2, h3⟩ := C10_buffer_reset pOk stDirty stIdle rfl
  refine ⟨rfl, h1, ?_⟩
  rw [h3 rfl]
  rfl
